import Mathlib

/-
  Verification development for the kpersist watch-to-file persistence
  pipeline (src/main.go).  The data model and the operations below are a
  shallow embedding of the Go source: JSON snapshots delivered by the
  watch stream, the resource dispatcher loop of watchResources, the
  Tracker loop of processResourceModifications, the initial-content
  writer writeInitialFileContent, the pod dispatcher loop of
  watchPodsForLogs, and the pod log follower
  followAndPersistContainerLog.  The third-party diff engine
  (github.com/nsf/jsondiff, used with SkipMatches = true) is not part of
  the repository source, so it is modelled from the spec where noted.
-/

set_option linter.unusedVariables false

namespace KPersist

/-
  JSON documents as delivered by the watch stream and marshalled by
  unstructured.Unstructured.MarshalJSON.  Numeric leaves are modelled as
  integers; object fields are an association list in serialization
  order (Go serializes its string-keyed maps with sorted, unique keys).
-/
mutual
inductive Json where
  | null : Json
  | bool : Bool → Json
  | num : Int → Json
  | str : String → Json
  | arr : JsonArr → Json
  | obj : JsonObj → Json

inductive JsonArr where
  | nil : JsonArr
  | cons : Json → JsonArr → JsonArr

inductive JsonObj where
  | nil : JsonObj
  | cons : String → Json → JsonObj → JsonObj
end

/- First binding of a key in an object, as a Go map lookup. -/
def lookupObj : JsonObj → String → Option Json
  | .nil, _ => none
  | .cons k v tl, q => if q = k then some v else lookupObj tl q

/- Whether a key occurs in an object. -/
def keyMem : JsonObj → String → Bool
  | .nil, _ => false
  | .cons k _ tl, q => if q = k then true else keyMem tl q

/-
  unstructured.Unstructured.GetName: reads the nested string at
  metadata.name, returning the empty string when absent.
-/
def Json.getName : Json → String
  | .obj o =>
    match lookupObj o "metadata" with
    | some (.obj m) =>
      match lookupObj m "name" with
      | some (.str s) => s
      | _ => ""
    | _ => ""
  | _ => ""

/- Indentation as produced by json.Indent with indent string a tab. -/
def tabs : Nat → String
  | 0 => ""
  | n + 1 => tabs n ++ "\t"

/-
  JSON string quoting.  The entity names and field values handled by the
  claims contain no characters needing escapes, so escaping is elided.
-/
def quoteStr (s : String) : String := "\"" ++ s ++ "\""

/-
  Pretty rendering with tab indentation: the composite of
  Unstructured.MarshalJSON (compact serialization) and
  json.Indent(dst, src, "", "\t") from writeInitialFileContent.
-/
mutual
def pretty : Nat → Json → String
  | _, .null => "null"
  | _, .bool b => if b then "true" else "false"
  | _, .num n => toString n
  | _, .str s => quoteStr s
  | _, .arr .nil => "[]"
  | d, .arr a => "[\n" ++ prettyArr (d + 1) a ++ "\n" ++ tabs d ++ "]"
  | _, .obj .nil => "\x7b\x7d"
  | d, .obj o => "\x7b\n" ++ prettyObj (d + 1) o ++ "\n" ++ tabs d ++ "\x7d"

def prettyArr : Nat → JsonArr → String
  | _, .nil => ""
  | d, .cons x .nil => tabs d ++ pretty d x
  | d, .cons x tl => tabs d ++ pretty d x ++ ",\n" ++ prettyArr d tl

def prettyObj : Nat → JsonObj → String
  | _, .nil => ""
  | d, .cons k v .nil => tabs d ++ quoteStr k ++ ": " ++ pretty d v
  | d, .cons k v tl => tabs d ++ quoteStr k ++ ": " ++ pretty d v ++ ",\n" ++ prettyObj d tl
end

def prettyJson : Json → String := pretty 0

/- A snapshot carrying only metadata.name, for concrete scenarios. -/
def mkNamed (name : String) : Json :=
  .obj (.cons "metadata" (.obj (.cons "name" (.str name) .nil)) .nil)

/-
  Diff engine.  The program diffs snapshots with the third-party library
  github.com/nsf/jsondiff, configured with SkipMatches = true
  (processResourceModifications, src/main.go).  That library is not part
  of this repository's source, so the definitions below are modelled
  from the spec: a structural comparison walking both documents in
  parallel that reports every added, removed or changed node and
  suppresses unchanged nodes, producing a deterministic rendering.
-/

inductive DeltaKind where
  | added : DeltaKind
  | removed : DeltaKind
  | changed : DeltaKind
deriving DecidableEq

/- One reported delta: the path to the node and what happened to it. -/
structure Delta where
  path : List String
  kind : DeltaKind
deriving DecidableEq

def kindText : DeltaKind → String
  | .added => "added"
  | .removed => "removed"
  | .changed => "changed"

def renderDelta (d : Delta) : String :=
  String.intercalate "." d.path ++ ": " ++ kindText d.kind

/- Deterministic, order-stable textual rendering of the delta set. -/
def renderDiff (ds : List Delta) : String :=
  String.intercalate "\n" (ds.map renderDelta)

/- Prefix every delta path with the key of the enclosing node. -/
def pfxKey (k : String) (ds : List Delta) : List Delta :=
  ds.map (fun d => ⟨k :: d.path, d.kind⟩)

/- Keys of the current document that the previous document lacks. -/
def diffObjAdded : JsonObj → JsonObj → List Delta
  | .nil, _ => []
  | .cons k _ tl, prevO =>
    (if keyMem prevO k then [] else [⟨[k], .added⟩]) ++ diffObjAdded tl prevO

/- Indexwise additions when the current array is longer. -/
def arrAddedFrom : Nat → JsonArr → List Delta
  | _, .nil => []
  | i, .cons _ tl => ⟨[toString i], .added⟩ :: arrAddedFrom (i + 1) tl

/- Indexwise removals when the previous array is longer. -/
def arrRemovedFrom : Nat → JsonArr → List Delta
  | _, .nil => []
  | i, .cons _ tl => ⟨[toString i], .removed⟩ :: arrRemovedFrom (i + 1) tl

/-
  Modelled from the spec: the Diff Engine contract of spec section 4.1,
  standing in for jsondiff.Compare with SkipMatches = true.  Matching
  leaves and fully matching containers contribute no deltas; mismatched
  kinds and differing leaves are changed; keys or elements present on
  only one side are added or removed.
-/
mutual
def diffJson : Json → Json → List Delta
  | .null, .null => []
  | .bool a, .bool b => if a = b then [] else [⟨[], .changed⟩]
  | .num a, .num b => if a = b then [] else [⟨[], .changed⟩]
  | .str a, .str b => if a = b then [] else [⟨[], .changed⟩]
  | .arr a, .arr b => diffArr 0 a b
  | .obj a, .obj b => diffObjPrev a b ++ diffObjAdded b a
  | _, _ => [⟨[], .changed⟩]

def diffArr : Nat → JsonArr → JsonArr → List Delta
  | _, .nil, .nil => []
  | i, .nil, b => arrAddedFrom i b
  | i, a, .nil => arrRemovedFrom i a
  | i, .cons x xs, .cons y ys =>
    pfxKey (toString i) (diffJson x y) ++ diffArr (i + 1) xs ys

def diffObjPrev : JsonObj → JsonObj → List Delta
  | .nil, _ => []
  | .cons k v tl, curr =>
    (match lookupObj curr k with
     | none => [⟨[k], .removed⟩]
     | some w => pfxKey k (diffJson v w)) ++ diffObjPrev tl curr
end

/-
  Well-formed documents: every object has pairwise distinct keys, as is
  guaranteed for documents marshalled from Go string-keyed maps.
-/
mutual
def wfJson : Json → Bool
  | .arr a => wfArr a
  | .obj o => wfObj o
  | _ => true

def wfArr : JsonArr → Bool
  | .nil => true
  | .cons x tl => wfJson x && wfArr tl

def wfObj : JsonObj → Bool
  | .nil => true
  | .cons k v tl => !keyMem tl k && wfJson v && wfObj tl
end

/- Membership of a key-value binding in an object. -/
inductive ObjMem : String → Json → JsonObj → Prop where
  | head {k : String} {v : Json} (tl : JsonObj) : ObjMem k v (.cons k v tl)
  | tail {k : String} {v : Json} (k' : String) (v' : Json) {tl : JsonObj} :
      ObjMem k v tl → ObjMem k v (.cons k' v' tl)

theorem wfObj_cons {k : String} {v : Json} {tl : JsonObj}
    (hw : wfObj (.cons k v tl) = true) :
    keyMem tl k = false ∧ wfJson v = true ∧ wfObj tl = true := by
  have hw' : (!keyMem tl k && wfJson v && wfObj tl) = true := hw
  simp only [Bool.and_eq_true, Bool.not_eq_true'] at hw'
  exact ⟨hw'.1.1, hw'.1.2, hw'.2⟩

theorem objMem_keyMem {k : String} {v : Json} {o : JsonObj}
    (h : ObjMem k v o) : keyMem o k = true := by
  induction h with
  | head tl => simp [keyMem]
  | tail k' v' hm ih =>
    simp only [keyMem]
    by_cases hk : k = k'
    · simp [hk]
    · simp [hk, ih]

theorem lookupObj_of_wf {k : String} {v : Json} {o : JsonObj}
    (hw : wfObj o = true) (h : ObjMem k v o) : lookupObj o k = some v := by
  induction h with
  | head tl => simp [lookupObj]
  | tail k' v' hm ih =>
    obtain ⟨h1, h2, h3⟩ := wfObj_cons hw
    have hne : k ≠ k' := by
      intro hkk
      have hkm := objMem_keyMem hm
      rw [hkk] at hkm
      rw [hkm] at h1
      exact absurd h1 (by simp)
    simp only [lookupObj, if_neg hne]
    exact ih h3

theorem wf_of_objMem {k : String} {v : Json} {o : JsonObj}
    (hw : wfObj o = true) (h : ObjMem k v o) : wfJson v = true := by
  induction h with
  | head tl => exact (wfObj_cons hw).2.1
  | tail k' v' hm ih => exact ih (wfObj_cons hw).2.2

theorem diffObjAdded_self : ∀ (o c : JsonObj),
    (∀ k v, ObjMem k v o → keyMem c k = true) → diffObjAdded o c = []
  | .nil, _, _ => rfl
  | .cons k v tl, c, h => by
    simp only [diffObjAdded, h k v (ObjMem.head tl), if_pos rfl]
    exact diffObjAdded_self tl c (fun k' v' m => h k' v' (ObjMem.tail k v m))

mutual
theorem diffJson_refl (j : Json) (h : wfJson j = true) : diffJson j j = [] :=
  match j with
  | .null => rfl
  | .bool b => by simp [diffJson]
  | .num n => by simp [diffJson]
  | .str s => by simp [diffJson]
  | .arr a => diffArr_refl 0 a h
  | .obj o => by
    have h1 : diffObjPrev o o = [] :=
      diffObjPrev_refl o o (fun k v m => ⟨lookupObj_of_wf h m, wf_of_objMem h m⟩)
    have h2 : diffObjAdded o o = [] :=
      diffObjAdded_self o o (fun k v m => objMem_keyMem m)
    simp [diffJson, h1, h2]

theorem diffArr_refl (i : Nat) (a : JsonArr) (h : wfArr a = true) :
    diffArr i a a = [] :=
  match a with
  | .nil => rfl
  | .cons x tl => by
    simp only [wfArr, Bool.and_eq_true] at h
    have hx := diffJson_refl x h.1
    have htl := diffArr_refl (i + 1) tl h.2
    simp [diffArr, hx, htl, pfxKey]

theorem diffObjPrev_refl (o c : JsonObj)
    (h : ∀ k v, ObjMem k v o → lookupObj c k = some v ∧ wfJson v = true) :
    diffObjPrev o c = [] :=
  match o with
  | .nil => rfl
  | .cons k v tl => by
    have hk := h k v (ObjMem.head tl)
    have hv := diffJson_refl v hk.2
    have htl := diffObjPrev_refl tl c
      (fun k' v' m => h k' v' (ObjMem.tail k v m))
    simp [diffObjPrev, hk.1, hv, htl, pfxKey]
end

/-
  Resource Change Tracker: processResourceModifications (src/main.go).
  The Go loop consumes snapshots from its inbox channel; for each one it
  marshals the previous and current snapshots, diffs them, writes a
  timestamped block header and the rendered diff to the output file and
  syncs it, panicking on any error.  Each fallible operation of one
  iteration is given a success flag, so that the model covers every
  error interleaving the Go code can encounter.
-/

structure Faults where
  marshalPrevOk : Bool
  marshalCurrOk : Bool
  writeHeaderOk : Bool
  writeDiffOk : Bool
  syncOk : Bool
deriving DecidableEq

/- The fault assignment in which every operation succeeds. -/
def Faults.ok : Faults := ⟨true, true, true, true, true⟩

/- One appended diff block: its header timestamp and its diff text. -/
structure Block where
  time : Nat
  diffText : String
deriving DecidableEq

/- Rendering of a block as the two WriteString calls produce it. -/
def blockText (b : Block) : String :=
  "\n----------------------------------\nChange captured at " ++ toString b.time ++
    ":\n" ++ b.diffText ++ "\n----------------------------------\n"

structure TrackerState where
  blocks : List Block
  prev : Json
  now : Nat

/-
  One iteration of the Tracker loop.  The timestamp sequence ts stands
  for successive time.Now() calls (one per block); st.now counts them.
  A false flag models the corresponding Go error branch, all of which
  panic; the panic message is returned as the error value.
-/
def processResourceModificationStep (ts : Nat → Nat) (st : TrackerState)
    (curr : Json) (f : Faults) : Except String TrackerState :=
  if f.marshalPrevOk then
    if f.marshalCurrOk then
      let diffs := renderDiff (diffJson st.prev curr)
      if f.writeHeaderOk then
        if f.writeDiffOk then
          if f.syncOk then
            .ok ⟨st.blocks ++ [⟨ts st.now, diffs⟩], curr, st.now + 1⟩
          else .error "panic: out.Sync failed"
        else .error "panic: WriteString of diff failed"
      else .error "panic: WriteString of header failed"
    else .error "panic: curr.MarshalJSON failed"
  else .error "panic: prev.MarshalJSON failed"

def processResourceModificationsLoop (ts : Nat → Nat) :
    TrackerState → List (Json × Faults) → Except String TrackerState
  | st, [] => .ok st
  | st, (curr, f) :: rest =>
    match processResourceModificationStep ts st curr f with
    | .error e => .error e
    | .ok st' => processResourceModificationsLoop ts st' rest

/-
  The whole Tracker run: prev starts at the initial snapshot handed to
  the goroutine; the loop ends when the inbox is closed and drained.
-/
def processResourceModifications (ts : Nat → Nat) (obj : Json)
    (entries : List (Json × Faults)) : Except String TrackerState :=
  processResourceModificationsLoop ts ⟨[], obj, 0⟩ entries

/- Closed form of the block list a fault-free run appends. -/
def expectedBlocks (ts : Nat → Nat) : Nat → Json → List Json → List Block
  | _, _, [] => []
  | k, p, c :: rest =>
    ⟨ts k, renderDiff (diffJson p c)⟩ :: expectedBlocks ts (k + 1) c rest

theorem processStep_ok (ts : Nat → Nat) (st : TrackerState) (curr : Json) :
    processResourceModificationStep ts st curr Faults.ok =
      .ok ⟨st.blocks ++ [⟨ts st.now, renderDiff (diffJson st.prev curr)⟩],
        curr, st.now + 1⟩ := rfl

theorem processLoop_ok (ts : Nat → Nat) :
    ∀ (snaps : List Json) (st : TrackerState),
    processResourceModificationsLoop ts st (snaps.map (fun c => (c, Faults.ok))) =
      .ok ⟨st.blocks ++ expectedBlocks ts st.now st.prev snaps,
        snaps.getLastD st.prev, st.now + snaps.length⟩
  | [], st => by simp [processResourceModificationsLoop, expectedBlocks]
  | c :: rest, st => by
    simp only [List.map_cons, processResourceModificationsLoop, processStep_ok]
    rw [processLoop_ok ts rest]
    simp only [expectedBlocks, List.getLastD_cons, TrackerState.mk.injEq,
      List.append_assoc, List.singleton_append, List.length_cons, Except.ok.injEq,
      true_and, and_true]
    omega

theorem expectedBlocks_length (ts : Nat → Nat) :
    ∀ (l : List Json) (k : Nat) (p : Json),
    (expectedBlocks ts k p l).length = l.length
  | [], _, _ => rfl
  | c :: rest, k, p => by
    simp [expectedBlocks, expectedBlocks_length ts rest]

theorem expectedBlocks_getD (ts : Nat → Nat) :
    ∀ (l : List Json) (k : Nat) (p : Json) (i : Nat), i < l.length →
    (expectedBlocks ts k p l).getD i ⟨0, ""⟩ =
      ⟨ts (k + i), renderDiff (diffJson ((p :: l).getD i .null) (l.getD i .null))⟩
  | [], _, _, i, h => absurd h (by simp)
  | c :: rest, k, p, 0, _ => by simp [expectedBlocks]
  | c :: rest, k, p, i + 1, h => by
    have hi : i < rest.length := by simpa using h
    have ih := expectedBlocks_getD ts rest (k + 1) c i hi
    simp only [expectedBlocks, List.getD_cons_succ]
    rw [ih, show k + 1 + i = k + (i + 1) by omega]

theorem expectedBlocks_chain (ts : Nat → Nat)
    (hts : ∀ i j, i ≤ j → ts i ≤ ts j) :
    ∀ (l : List Json) (k : Nat) (p : Json),
    List.Chain' (fun a b => a.time ≤ b.time) (expectedBlocks ts k p l)
  | [], _, _ => List.chain'_nil
  | [c], k, p => by simp [expectedBlocks]
  | c :: c' :: rest, k, p => by
    have h2 := expectedBlocks_chain ts hts (c' :: rest) (k + 1) c
    simp only [expectedBlocks] at h2 ⊢
    exact List.chain'_cons.mpr ⟨hts k (k + 1) (by omega), h2⟩

theorem getLastD_take : ∀ (l : List Json) (k : Nat) (d : Json), k ≤ l.length →
    (l.take k).getLastD d = (d :: l).getD k Json.null
  | _, 0, _, _ => by simp
  | [], k + 1, _, h => absurd h (by simp)
  | c :: tl, k + 1, d, h => by
    have hk : k ≤ tl.length := by simpa using h
    simp only [List.take_succ_cons, List.getLastD_cons, List.getD_cons_succ]
    exact getLastD_take tl k c hk

/--
C1: For any sequence of Modified events delivered to one Tracker and
consumed without write errors, its output file gains exactly one diff
block per consumed snapshot, in delivery order; each block is headed by
a timestamp line carrying the i-th time.Now value, timestamps are
monotonically non-decreasing when the clock is, and after each block
the Tracker's previous-snapshot state equals the snapshot just
consumed.
-/
theorem tracker_output_blocks (ts : Nat → Nat)
    (hts : ∀ i j, i ≤ j → ts i ≤ ts j) (initial : Json) (snaps : List Json) :
    ∃ st, processResourceModifications ts initial
        (snaps.map (fun c => (c, Faults.ok))) = .ok st
      ∧ st.blocks.length = snaps.length
      ∧ (∀ i, i < snaps.length →
          st.blocks.getD i ⟨0, ""⟩ =
            ⟨ts i, renderDiff (diffJson ((initial :: snaps).getD i .null)
              (snaps.getD i .null))⟩)
      ∧ List.Chain' (fun a b => a.time ≤ b.time) st.blocks
      ∧ (∀ k, k ≤ snaps.length →
          ∃ stk, processResourceModifications ts initial
              ((snaps.take k).map (fun c => (c, Faults.ok))) = .ok stk
            ∧ stk.prev = (initial :: snaps).getD k .null
            ∧ stk.blocks.length = k) := by
  refine ⟨⟨expectedBlocks ts 0 initial snaps, snaps.getLastD initial,
    snaps.length⟩, ?_, ?_, ?_, ?_, ?_⟩
  · have hrun := processLoop_ok ts snaps ⟨[], initial, 0⟩
    simpa [processResourceModifications] using hrun
  · exact expectedBlocks_length ts snaps 0 initial
  · intro i hi
    simpa using expectedBlocks_getD ts snaps 0 initial i hi
  · exact expectedBlocks_chain ts hts snaps 0 initial
  · intro k hk
    refine ⟨⟨expectedBlocks ts 0 initial (snaps.take k),
      (snaps.take k).getLastD initial, (snaps.take k).length⟩, ?_, ?_, ?_⟩
    · have hrun := processLoop_ok ts (snaps.take k) ⟨[], initial, 0⟩
      simpa [processResourceModifications] using hrun
    · exact getLastD_take snaps k initial hk
    · simp only [expectedBlocks_length, List.length_take]
      omega

/--
Witness for C1 at a concrete clock and a one-snapshot delivery.
-/
theorem tracker_output_blocks_witness :
    (∀ i j : Nat, i ≤ j → (fun n : Nat => n) i ≤ (fun n : Nat => n) j)
    ∧ (∃ st, processResourceModifications (fun n : Nat => n) Json.null
          ([Json.bool true].map (fun c => (c, Faults.ok))) = .ok st
        ∧ st.blocks.length = [Json.bool true].length
        ∧ (∀ i, i < [Json.bool true].length →
            st.blocks.getD i ⟨0, ""⟩ =
              ⟨(fun n : Nat => n) i,
                renderDiff (diffJson ((Json.null :: [Json.bool true]).getD i .null)
                  ([Json.bool true].getD i .null))⟩)
        ∧ List.Chain' (fun a b => a.time ≤ b.time) st.blocks
        ∧ (∀ k, k ≤ [Json.bool true].length →
            ∃ stk, processResourceModifications (fun n : Nat => n) Json.null
                (([Json.bool true].take k).map (fun c => (c, Faults.ok))) = .ok stk
              ∧ stk.prev = (Json.null :: [Json.bool true]).getD k .null
              ∧ stk.blocks.length = k)) :=
  ⟨fun i j h => h,
    tracker_output_blocks (fun n : Nat => n) (fun i j h => h)
      Json.null [Json.bool true]⟩

theorem processStep_fault (ts : Nat → Nat) (st : TrackerState) (curr : Json)
    (f : Faults) (hf : f ≠ Faults.ok) :
    ∃ msg, processResourceModificationStep ts st curr f = .error msg := by
  obtain ⟨a, b, c, d, e⟩ := f
  cases a <;> cases b <;> cases c <;> cases d <;> cases e <;>
    first
      | exact absurd rfl hf
      | exact ⟨_, rfl⟩

theorem processLoop_fault (ts : Nat → Nat) :
    ∀ (entries : List (Json × Faults)) (st : TrackerState) (e : Json × Faults),
    e ∈ entries → e.2 ≠ Faults.ok →
    ∃ msg, processResourceModificationsLoop ts st entries = .error msg
  | [], _, _, he, _ => absurd he (by simp)
  | (c, f) :: rest, st, e, he, hf => by
    by_cases hfok : f = Faults.ok
    · subst hfok
      have hmem : e ∈ rest := by
        rcases List.mem_cons.mp he with h | h
        · exact absurd (by rw [h]) hf
        · exact h
      simp only [processResourceModificationsLoop, processStep_ok]
      exact processLoop_fault ts rest _ e hmem hf
    · obtain ⟨msg, hmsg⟩ := processStep_fault ts st c f hfok
      exact ⟨msg, by simp [processResourceModificationsLoop, hmsg]⟩

/--
C7: within a Tracker, every error occurring while constructing or
writing a diff block (marshalling either snapshot, writing the header
or the diff, or syncing the file) makes the whole run end in a panic:
no faulty delivery ever completes, so no error is silently dropped or
locally handled.
-/
theorem tracker_error_fatal (ts : Nat → Nat) (initial : Json)
    (entries : List (Json × Faults)) (e : Json × Faults)
    (he : e ∈ entries) (hf : e.2 ≠ Faults.ok) :
    ∃ msg, processResourceModifications ts initial entries = .error msg :=
  processLoop_fault ts entries ⟨[], initial, 0⟩ e he hf

/- A delivery whose file sync fails. -/
def faultySync : Faults := ⟨true, true, true, true, false⟩

/--
Witness for C7: one delivered snapshot whose sync fails panics the run.
-/
theorem tracker_error_fatal_witness :
    ((Json.null, faultySync) ∈ [(Json.null, faultySync)])
    ∧ (Json.null, faultySync).2 ≠ Faults.ok
    ∧ ∃ msg, processResourceModifications (fun n : Nat => n) Json.null
        [(Json.null, faultySync)] = .error msg :=
  ⟨List.mem_singleton.mpr rfl, by decide,
    tracker_error_fatal (fun n : Nat => n) Json.null _ _
      (List.mem_singleton.mpr rfl) (by decide)⟩

/-
  writeInitialFileContent (src/main.go): os.Create opens the file,
  creating it if absent and truncating it otherwise; the snapshot is
  marshalled, re-indented by json.Indent with a tab, and written as the
  initial content; the open handle is returned.  Every error branch
  panics, so the returned handle always carries the written content.
-/

structure CreatedFile where
  content : String
  isOpen : Bool
deriving DecidableEq

def writeInitialFileContent (typedObj : Json) : CreatedFile :=
  ⟨prettyJson typedObj, true⟩

/- Remove every binding of a key from an object. -/
def removeKey : JsonObj → String → JsonObj
  | .nil, _ => .nil
  | .cons k v tl, q =>
    if q = k then removeKey tl q else .cons k v (removeKey tl q)

/- Drop managedFields from the value of a top-level metadata field. -/
def stripMetaFields : JsonObj → JsonObj
  | .nil => .nil
  | .cons k v tl =>
    if k = "metadata" then
      match v with
      | .obj m => .cons k (.obj (removeKey m "managedFields")) (stripMetaFields tl)
      | _ => .cons k v (stripMetaFields tl)
    else .cons k v (stripMetaFields tl)

/--
Modelled from the spec: the stripping of ephemeral control-plane
bookkeeping fields (field-manager metadata, i.e. metadata.managedFields)
that spec section 4.2 says create performs before recording the
snapshot.  No such stripping exists anywhere in src/main.go.
-/
def stripEphemeralFields : Json → Json
  | .obj o => .obj (stripMetaFields o)
  | j => j

/--
The initial file content exactly as the spec's words describe create:
pretty-printed JSON of the snapshot with ephemeral fields stripped.
-/
def specCreateContent (typedObj : Json) : String :=
  prettyJson (stripEphemeralFields typedObj)

/- A snapshot carrying field-manager bookkeeping under metadata. -/
def sampleManaged : Json :=
  .obj (.cons "metadata"
    (.obj (.cons "managedFields"
      (.arr (.cons (.obj (.cons "manager" (.str "kubectl") .nil)) .nil))
      (.cons "name" (.str "r1") .nil)))
    (.cons "status" (.obj (.cons "phase" (.str "Pending") .nil)) .nil))

/- Association-list primitives modelling Go map reads and writes. -/

def lookupA {α : Type} : List (String × α) → String → Option α
  | [], _ => none
  | (k, v) :: tl, q => if q = k then some v else lookupA tl q

def insertA {α : Type} : List (String × α) → String → α → List (String × α)
  | [], k, v => [(k, v)]
  | (k', v') :: tl, k, v =>
    if k = k' then (k, v) :: tl else (k', v') :: insertA tl k v

def eraseA {α : Type} : List (String × α) → String → List (String × α)
  | [], _ => []
  | (k', v') :: tl, k => if k = k' then tl else (k', v') :: eraseA tl k

theorem lookupA_insertA_self {α : Type} :
    ∀ (l : List (String × α)) (k : String) (v : α),
    lookupA (insertA l k v) k = some v
  | [], k, v => by simp [insertA, lookupA]
  | (k', v') :: tl, k, v => by
    by_cases h : k = k'
    · simp [insertA, lookupA, h]
    · simp [insertA, lookupA, h, lookupA_insertA_self tl k v]

/- Numeric-keyed association lists for channel identifiers. -/

def lookupN {α : Type} : List (Nat × α) → Nat → Option α
  | [], _ => none
  | (k, v) :: tl, q => if q = k then some v else lookupN tl q

def insertN {α : Type} : List (Nat × α) → Nat → α → List (Nat × α)
  | [], k, v => [(k, v)]
  | (k', v') :: tl, k, v =>
    if k = k' then (k, v) :: tl else (k', v') :: insertN tl k v

/-
  Entity Watch Dispatcher, resource stream: the event loop of
  watchResources (src/main.go).  The channels map is the registry; a
  missing map key yields Go's zero value, the nil channel.  Closing a
  nil channel is a runtime panic; sending on a nil channel blocks the
  goroutine forever.  Channel identifiers are allocated from a counter;
  each buffer in the model accumulates the snapshots the dispatcher has
  delivered (the capacity-10 backpressure of the real channel comes from
  the concurrently draining Tracker and is not at issue in any claim).
-/

inductive EventKind where
  | added : EventKind
  | modified : EventKind
  | deleted : EventKind
  | other : String → EventKind
deriving DecidableEq

/- The string watch.EventType prints as. -/
def eventTypeText : EventKind → String
  | .added => "ADDED"
  | .modified => "MODIFIED"
  | .deleted => "DELETED"
  | .other t => t

structure REvent where
  kind : EventKind
  obj : Json

/- A spawned Tracker goroutine: its inbox channel, file and first snapshot. -/
structure Worker where
  inbox : Nat
  file : String
  initial : Json

structure ChanState where
  buf : List Json
  closed : Bool

structure RState where
  channels : List (String × Nat)
  chanStates : List (Nat × ChanState)
  nextCh : Nat
  workers : List Worker
  fs : List (String × String)
  stdout : List String

def initRState : RState := ⟨[], [], 0, [], [], []⟩

def integrationFileName (path name : String) : String :=
  path ++ "/integration_" ++ name ++ ".txt"

def pushChan (cs : List (Nat × ChanState)) (ch : Nat) (j : Json) :
    List (Nat × ChanState) :=
  match lookupN cs ch with
  | some st => insertN cs ch ⟨st.buf ++ [j], st.closed⟩
  | none => cs

def closeChan (cs : List (Nat × ChanState)) (ch : Nat) :
    List (Nat × ChanState) :=
  match lookupN cs ch with
  | some st => insertN cs ch ⟨st.buf, true⟩
  | none => cs

/-
  Outcome of dispatcher processing: a normal next state, a Go runtime
  panic of the dispatcher goroutine, or the goroutine blocking forever.
-/
inductive ROutcome (α : Type) where
  | ok : α → ROutcome α
  | crash : String → ROutcome α
  | blocked : String → ROutcome α

/-
  One iteration of the watchResources event loop.  On Modified the
  event-type line is printed before the send; a .blocked outcome leaves
  the state behind, recording only that the goroutine is stuck.
-/
def watchResourcesStep (path : String) (s : RState) (e : REvent) :
    ROutcome RState :=
  match e.kind with
  | .added =>
    let name := e.obj.getName
    let ch := s.nextCh
    let fileName := integrationFileName path name
    let file := writeInitialFileContent e.obj
    .ok ⟨insertA s.channels name ch,
      insertN s.chanStates ch ⟨[], false⟩,
      ch + 1,
      s.workers ++ [⟨ch, fileName, e.obj⟩],
      insertA s.fs fileName file.content,
      s.stdout ++ ["Watch Integration Event: ADDED",
        "Writing to file " ++ fileName]⟩
  | .modified =>
    let name := e.obj.getName
    match lookupA s.channels name with
    | none => .blocked "send on nil channel"
    | some ch =>
      .ok { s with
        chanStates := pushChan s.chanStates ch e.obj,
        stdout := s.stdout ++ ["Watch Integration Event: MODIFIED"] }
  | .deleted =>
    let name := e.obj.getName
    match lookupA s.channels name with
    | none => .crash "close of nil channel"
    | some ch =>
      .ok { s with
        chanStates := closeChan s.chanStates ch,
        channels := eraseA s.channels name }
  | .other t =>
    .ok { s with stdout := s.stdout ++ ["Unsupported Integration Event: " ++ t] }

/- The dispatcher loop over a finite prefix of the watch stream. -/
def runWatchResources (path : String) : RState → List REvent → ROutcome RState
  | s, [] => .ok s
  | s, e :: rest =>
    match watchResourcesStep path s e with
    | .ok s' => runWatchResources path s' rest
    | .crash m => .crash m
    | .blocked m => .blocked m

/-
  Entity Watch Dispatcher, pod stream: the event loop of
  watchPodsForLogs (src/main.go).  Every event's type is printed; only
  Added spawns a follower goroutine.  There is no registry, no gate and
  no state beyond the spawned goroutines.
-/

structure PodEvent where
  kind : EventKind
  podName : String

structure PState where
  stdout : List String
  followers : List String

def watchPodsForLogsStep (s : PState) (e : PodEvent) : PState :=
  let s1 : PState :=
    ⟨s.stdout ++ ["Watch Pod Event: " ++ eventTypeText e.kind], s.followers⟩
  if e.kind = .added then ⟨s1.stdout, s1.followers ++ [e.podName]⟩ else s1

/-
  Pod Log Follower: followAndPersistContainerLog (src/main.go).  It
  opens the pod's file, runs the kubectl log pipeline once via cmd.Run,
  writes either the error line or the done line, and returns.  The
  gateSignals argument records the Modified-event signals the spec says
  a retry gate would receive; the source has no gate, no canRetry flag
  and no loop, so the signals influence nothing.
-/

def podFileName (path name : String) : String :=
  path ++ "/pod_" ++ name ++ ".txt"

structure PodFollowerRun where
  fileName : String
  fileLines : List String
  attempts : Nat
deriving DecidableEq

def followAndPersistContainerLog (path podName : String)
    (cmdResult : Except String Unit) (gateSignals : List Bool) :
    PodFollowerRun :=
  let fileName := podFileName path podName
  match cmdResult with
  | .error err =>
    ⟨fileName,
      ["Error when trying to get logs from pod " ++ podName ++ ": " ++ err], 1⟩
  | .ok _ =>
    ⟨fileName, ["Done writing logs from pod " ++ podName], 1⟩

/--
Modelled from the spec: the retry-gate Follower loop of spec section
4.3, which src/main.go does not contain.  The list holds the value of
canRetry observed at each wake-up of the gate; the Follower attempts
once, then on each wake retries while canRetry holds and exits at the
first false.
-/
def specFollowerAttempts : List Bool → Nat
  | [] => 1
  | canRetry :: wakes => if canRetry then 1 + specFollowerAttempts wakes else 1

/-
  Output naming.  main builds the run directory as
  filepath.Join("./kpersist-logs", startTimestamp), which Join cleans to
  kpersist-logs/<startTimestamp>; watchResources and the follower then
  join the per-entity file names onto that directory.
-/
def runDirPath (startTimestamp : String) : String :=
  "kpersist-logs/" ++ startTimestamp

/--
The file-name patterns exactly as the spec's words state them: the
process-start timestamp joined to the entity kind and name by
underscores.
-/
def specResourceFileName (timestamp name : String) : String :=
  timestamp ++ "_integration_" ++ name ++ ".txt"

def specPodFileName (timestamp name : String) : String :=
  timestamp ++ "_pod_" ++ name ++ ".txt"

/--
C6: for every well-formed JSON document A, the diff of A against itself
reports no deltas and renders as the empty delta text: unchanged nodes
are suppressed.
-/
theorem diff_self_renders_nothing (A : Json) (h : wfJson A = true) :
    diffJson A A = [] ∧ renderDiff (diffJson A A) = "" := by
  have hd := diffJson_refl A h
  exact ⟨hd, by rw [hd]; rfl⟩

/--
Witness for C6 at a concrete well-formed document.
-/
theorem diff_self_renders_nothing_witness :
    wfJson sampleManaged = true
    ∧ (diffJson sampleManaged sampleManaged = []
      ∧ renderDiff (diffJson sampleManaged sampleManaged) = "") :=
  ⟨by decide, diff_self_renders_nothing sampleManaged (by decide)⟩

/--
C5-counterexample: writeInitialFileContent writes the pretty-printed
snapshot with its metadata.managedFields intact, so on a snapshot
carrying field-manager metadata its output differs from the
stripped-then-serialized content the claim describes.
-/
theorem create_strips_nothing_counterexample :
    (writeInitialFileContent sampleManaged).content =
      "\x7b\n\t\"metadata\": \x7b\n\t\t\"managedFields\": [\n\t\t\t\x7b\n\t\t\t\t\"manager\": \"kubectl\"\n\t\t\t\x7d\n\t\t],\n\t\t\"name\": \"r1\"\n\t\x7d,\n\t\"status\": \x7b\n\t\t\"phase\": \"Pending\"\n\t\x7d\n\x7d"
    ∧ specCreateContent sampleManaged =
      "\x7b\n\t\"metadata\": \x7b\n\t\t\"name\": \"r1\"\n\t\x7d,\n\t\"status\": \x7b\n\t\t\"phase\": \"Pending\"\n\t\x7d\n\x7d"
    ∧ (writeInitialFileContent sampleManaged).content ≠
        specCreateContent sampleManaged :=
  ⟨rfl, rfl, by decide⟩

/--
C5-amended: create opens the output file, serializes the snapshot as
pretty-printed tab-indented JSON without stripping any field, writes
exactly that as the file's initial content and returns an open handle;
the spec's create coincides with the code's create exactly on
pre-stripped snapshots.
-/
theorem create_initial_content (path : String) (s : RState) (obj : Json) :
    (writeInitialFileContent obj).content = prettyJson obj
    ∧ (writeInitialFileContent obj).isOpen = true
    ∧ (writeInitialFileContent (stripEphemeralFields obj)).content =
        specCreateContent obj
    ∧ (∃ s', watchResourcesStep path s ⟨.added, obj⟩ = .ok s'
        ∧ lookupA s'.fs (integrationFileName path (Json.getName obj)) =
            some (prettyJson obj)) :=
  ⟨rfl, rfl, rfl, ⟨_, rfl, lookupA_insertA_self s.fs _ _⟩⟩

/--
C3 (code-bug evidence): a Deleted event for a name with no registry
entry makes the dispatcher close the nil channel, a Go runtime panic;
no warning is logged and the dispatcher does not survive.
-/
theorem deleted_without_entry_crashes :
    watchResourcesStep "kpersist-logs/t" initRState ⟨.deleted, mkNamed "r1"⟩ =
      .crash "close of nil channel" := rfl

/--
C4 (code-bug evidence): a Modified event for a name with no registry
entry makes the dispatcher send on the nil channel, blocking the
dispatch loop forever, so a subsequent Added event is never processed
and no warning is logged.
-/
theorem modified_without_entry_blocks :
    runWatchResources "kpersist-logs/t" initRState
      [⟨.modified, mkNamed "r1"⟩, ⟨.added, mkNamed "r2"⟩] =
      .blocked "send on nil channel" := rfl

/--
C8-counterexample: the output paths place the process-start timestamp
as the run directory, joined by a path separator, not underscore-joined
into the file name as the claim's pattern states.
-/
theorem file_naming_counterexample :
    integrationFileName (runDirPath "20240101_120000.00000") "r1" =
      "kpersist-logs/20240101_120000.00000/integration_r1.txt"
    ∧ integrationFileName (runDirPath "20240101_120000.00000") "r1" ≠
        specResourceFileName "20240101_120000.00000" "r1"
    ∧ podFileName (runDirPath "20240101_120000.00000") "p1" ≠
        specPodFileName "20240101_120000.00000" "p1" :=
  ⟨rfl, by decide, by decide⟩

/--
C8-amended: each watched entity has one deterministic output path built
from the entity kind, the process-start timestamp and the entity name,
kpersist-logs/timestamp/integration_name.txt for resources and
kpersist-logs/timestamp/pod_name.txt for pods; an Added event creates
exactly that one file and touches no other, and the follower writes to
exactly that pod path.
-/
theorem output_file_deterministic_naming (startTs : String) (s : RState)
    (obj : Json) (podName : String) (res : Except String Unit)
    (sig : List Bool) :
    integrationFileName (runDirPath startTs) (Json.getName obj) =
      "kpersist-logs/" ++ startTs ++ "/integration_" ++ Json.getName obj ++ ".txt"
    ∧ (∃ s', watchResourcesStep (runDirPath startTs) s ⟨.added, obj⟩ = .ok s'
        ∧ s'.fs = insertA s.fs
            (integrationFileName (runDirPath startTs) (Json.getName obj))
            (writeInitialFileContent obj).content)
    ∧ (followAndPersistContainerLog (runDirPath startTs) podName res sig).fileName =
        "kpersist-logs/" ++ startTs ++ "/pod_" ++ podName ++ ".txt" := by
  refine ⟨?_, ⟨_, rfl, rfl⟩, ?_⟩
  · simp only [integrationFileName, runDirPath, String.append_assoc]
  · cases res <;>
      simp only [followAndPersistContainerLog, podFileName, runDirPath,
        String.append_assoc]

/--
C9: the pod-stream dispatcher acts only on Added events: any event of a
kind other than Added only gets its event type printed, with no
follower spawned and no other state change.
-/
theorem pod_dispatcher_ignores_non_added (s : PState) (e : PodEvent)
    (h : e.kind ≠ .added) :
    watchPodsForLogsStep s e =
      ⟨s.stdout ++ ["Watch Pod Event: " ++ eventTypeText e.kind],
        s.followers⟩ := by
  simp [watchPodsForLogsStep, h]

/--
Witness for C9 at a concrete Modified pod event.
-/
theorem pod_dispatcher_ignores_non_added_witness :
    (PodEvent.mk .modified "p1").kind ≠ EventKind.added
    ∧ watchPodsForLogsStep ⟨[], []⟩ ⟨.modified, "p1"⟩ =
        ⟨([] : List String) ++
          ["Watch Pod Event: " ++ eventTypeText (PodEvent.mk .modified "p1").kind],
          ([] : List String)⟩ :=
  ⟨by decide,
    pod_dispatcher_ignores_non_added ⟨[], []⟩ ⟨.modified, "p1"⟩ (by decide)⟩

/--
C10: an Added event for a resource name already registered re-creates
(truncates) the entity's output file, writes the new initial snapshot,
replaces the registry's inbox entry with a fresh channel, and spawns a
second Tracker worker on the same file, while every previous worker,
in particular the one on the old inbox, remains.
-/
theorem added_existing_name_respawns (path : String) (s : RState) (obj : Json)
    (oldCh : Nat) (w : Worker)
    (hreg : lookupA s.channels (Json.getName obj) = some oldCh)
    (hold : oldCh < s.nextCh)
    (hw : w ∈ s.workers) (hwi : w.inbox = oldCh)
    (hwf : w.file = integrationFileName path (Json.getName obj)) :
    ∃ s', watchResourcesStep path s ⟨.added, obj⟩ = .ok s'
      ∧ lookupA s'.channels (Json.getName obj) = some s.nextCh
      ∧ oldCh ≠ s.nextCh
      ∧ lookupA s'.fs (integrationFileName path (Json.getName obj)) =
          some (writeInitialFileContent obj).content
      ∧ w ∈ s'.workers
      ∧ Worker.mk s.nextCh (integrationFileName path (Json.getName obj)) obj ∈
          s'.workers
      ∧ w.file =
          (Worker.mk s.nextCh (integrationFileName path (Json.getName obj)) obj).file := by
  refine ⟨_, rfl, ?_, ?_, ?_, ?_, ?_, ?_⟩
  · exact lookupA_insertA_self s.channels _ _
  · omega
  · exact lookupA_insertA_self s.fs _ _
  · exact List.mem_append_left _ hw
  · exact List.mem_append_right _ (List.mem_singleton.mpr rfl)
  · simpa using hwf

/- A registry state in which r1 is already tracked on channel 0. -/
def s1 : RState :=
  ⟨[("r1", 0)], [(0, ⟨[], false⟩)], 1,
    [⟨0, integrationFileName "kpersist-logs/t" "r1", mkNamed "r1"⟩],
    [(integrationFileName "kpersist-logs/t" "r1",
      (writeInitialFileContent (mkNamed "r1")).content)],
    []⟩

/--
Witness for C10: a second Added event for r1 against the state left by
the first one.
-/
theorem added_existing_name_respawns_witness :
    lookupA s1.channels (Json.getName (mkNamed "r1")) = some 0
    ∧ 0 < s1.nextCh
    ∧ Worker.mk 0 (integrationFileName "kpersist-logs/t" "r1") (mkNamed "r1") ∈
        s1.workers
    ∧ (Worker.mk 0 (integrationFileName "kpersist-logs/t" "r1")
        (mkNamed "r1")).inbox = 0
    ∧ (Worker.mk 0 (integrationFileName "kpersist-logs/t" "r1")
        (mkNamed "r1")).file =
          integrationFileName "kpersist-logs/t" (Json.getName (mkNamed "r1"))
    ∧ (∃ s', watchResourcesStep "kpersist-logs/t" s1 ⟨.added, mkNamed "r1"⟩ = .ok s'
        ∧ lookupA s'.channels (Json.getName (mkNamed "r1")) = some s1.nextCh
        ∧ 0 ≠ s1.nextCh
        ∧ lookupA s'.fs
            (integrationFileName "kpersist-logs/t" (Json.getName (mkNamed "r1"))) =
              some (writeInitialFileContent (mkNamed "r1")).content
        ∧ Worker.mk 0 (integrationFileName "kpersist-logs/t" "r1") (mkNamed "r1") ∈
            s'.workers
        ∧ Worker.mk s1.nextCh
            (integrationFileName "kpersist-logs/t" (Json.getName (mkNamed "r1")))
            (mkNamed "r1") ∈ s'.workers
        ∧ (Worker.mk 0 (integrationFileName "kpersist-logs/t" "r1")
            (mkNamed "r1")).file =
              (Worker.mk s1.nextCh
                (integrationFileName "kpersist-logs/t" (Json.getName (mkNamed "r1")))
                (mkNamed "r1")).file) :=
  ⟨rfl, by decide, List.mem_singleton.mpr rfl, rfl, rfl,
    added_existing_name_respawns "kpersist-logs/t" s1 (mkNamed "r1") 0 _
      rfl (by decide) (List.mem_singleton.mpr rfl) rfl rfl⟩

/--
C2-counterexample: a Follower whose attempt exits while the spec's
canRetry would still be true and which is then signaled once makes no
second attempt: the code's attempt count stays 1 where the spec's
retry-gate Follower would make 2.
-/
theorem follower_retry_counterexample :
    (followAndPersistContainerLog "kpersist-logs/t" "p1" (.ok ())
      [true, false]).attempts = 1
    ∧ specFollowerAttempts [true, false] = 2
    ∧ (followAndPersistContainerLog "kpersist-logs/t" "p1" (.ok ())
        [true, false]).attempts ≠ specFollowerAttempts [true, false] :=
  ⟨rfl, rfl, by decide⟩

/--
C2-amended: for every watched pod the Follower makes exactly one
log-streaming attempt: src/main.go has no retry gate and no canRetry
flag, so gate signals change nothing and no second attempt ever starts;
the single initial attempt always runs.
-/
theorem follower_single_attempt (path podName : String)
    (cmdResult : Except String Unit) (gateSignals otherSignals : List Bool) :
    (followAndPersistContainerLog path podName cmdResult gateSignals).attempts = 1
    ∧ (followAndPersistContainerLog path podName cmdResult gateSignals).attempts =
        (followAndPersistContainerLog path podName cmdResult otherSignals).attempts := by
  cases cmdResult <;> exact ⟨rfl, rfl⟩

end KPersist
